import Mathlib

/-!
Verification development for the ashparse command-line argument parsing
library.  The definitions below are a shallow embedding of the Python
sources (src/ashparser): pure functions become Lean functions, the
parser's instance state becomes an explicit state record threaded through
the functions, Python exceptions become an explicit error type carried in
`Except`, and the recursive-descent token loop (which can genuinely fail
to terminate in the source) is given a fuel parameter with a dedicated
`fuelExhausted` outcome, so that any non-`fuelExhausted` result is the
true outcome of the Python execution.
-/

namespace AshParse

/-- Python value types an argument can declare (str/int/float/bool),
argument.py / parser.py use the class objects themselves; only these four
occur in the library's documented usage. -/
inductive PyType where
  | str | int | float | bool
deriving DecidableEq, Repr

/-- Converted Python values.  Float values only ever arise in this
development from integer-literal tokens, so they are carried as integers. -/
inductive PyVal where
  | s (v : String)
  | i (v : Int)
  | f (v : Int)
  | b (v : Bool)
deriving DecidableEq, Repr

/-- Python exceptions surfaced by the library, plus the built-in
exceptions the code can actually raise (KeyError, IndexError,
AttributeError, ValueError), as structured values carrying the fields the
exception classes in exceptions.py store.  `fuelExhausted` is not a
Python outcome: it marks that the fuel bound of the embedding was reached
(the token loop in parser.py can loop forever). -/
inductive PErr where
  | keyError (k : String)
  | indexError
  | attributeError (attr : String)
  | valueError (s : String)
  | argumentError (msg : String)
  | argumentTypeError (msg : String)
  | invalidValue (value : Int) (argName : String) (reason : String)
  | invalidChoice (argName : String)
  | invalidAlias (aliasStr : String)
  | tooFew (argName : String) (minExpected : Nat) (received : Nat)
  | tooMany (argName : String) (maxExpected : Nat) (received : Nat)
  | unknownArgument (t : String)
  | missingRequired (n : String)
  | mutuallyExclusive (names : List String)
  | notImplementedError
  | fuelExhausted
deriving DecidableEq, Repr

/-- sys.maxsize on a 64-bit CPython, used by argument.py's
`_parse_num_args` as the unbounded arity maximum. -/
def pyMaxsize : Nat := 9223372036854775807

/-- The arity specifier accepted by `add_argument`'s `num_args` parameter:
`"?"`, `"*"`, `"+"` or an integer (argument.py 26).  `None` is represented
by `Option.none` around this type. -/
inductive NumArgsSpec where
  | qmark | star | plus
  | intSpec (k : Int)
deriving DecidableEq, Repr

/-- An argument node as consumed by the parsing engine (spec section 3 /
argument.py fields after initialization): canonical name, optional alias,
declared value type, derived (min, max) arity bounds, required flag,
optional default and optional choices. -/
structure ArgSpec where
  name : String
  aliasName : Option String := none
  ptype : PyType
  numArgs : Nat × Nat := (1, 1)
  required : Bool := false
  defaultVal : Option PyVal := none
  choices : Option (List PyVal) := none
deriving DecidableEq, Repr

/-- Modelled from the spec: the group kind tag.  `GroupType` is referenced
throughout the sources (group.py, mixins.py, parser.py import it from
types_.py) but its definition is not among the source files; spec
section 3 fixes the four kinds (plain/argument, recurring,
mutually-exclusive, conditional). -/
inductive GroupType where
  | argument | recurring | mutex | conditional
deriving DecidableEq, Repr

/-- The conditional-relation subtype (types_.py 17-21). -/
inductive CondType where
  | firstPresentRestRequired | firstAbsentRestForbidden
deriving DecidableEq, Repr

/-- A node of the declared tree: an argument leaf or a group with ordered
children (group.py `ArgumentGroup.arguments`). -/
inductive Node where
  | arg (a : ArgSpec)
  | group (name : String) (aliasName : Option String) (gtype : GroupType)
      (subtype : Option CondType) (required : Bool) (children : List Node)

/-- Canonical name of a node (`self.name`). -/
def Node.name : Node → String
  | .arg a => a.name
  | .group n _ _ _ _ _ => n

/-- Alias of a node (`self.alias`). -/
def Node.aliasName : Node → Option String
  | .arg a => a.aliasName
  | .group _ al _ _ _ _ => al

/-- Required flag of a node (`self.required`). -/
def Node.required : Node → Bool
  | .arg a => a.required
  | .group _ _ _ _ r _ => r

/-- Whether a node is a recurring group (parser.py 489-494 filters
children with `isinstance(g, ArgumentGroup) and g.group_type ==
GroupType.RECURRING`). -/
def Node.isRecurringGroup : Node → Bool
  | .arg _ => false
  | .group _ _ gt _ _ _ => gt = GroupType.recurring

/-- Whether one character list starts with another (executable model of
`str.startswith`). -/
def charsStartWith : List Char → List Char → Bool
  | [], _ => true
  | _ :: _, [] => false
  | p :: ps, c :: cs => if p = c then charsStartWith ps cs else false

/-- Python `s.startswith(d)`. -/
def pyStartsWith (s d : String) : Bool := charsStartWith d.data s.data

/-- Accumulating decimal reader for `int()`. -/
def digitsValGo : List Char → Nat → Option Nat
  | [], acc => some acc
  | c :: cs, acc =>
    if c.isDigit then digitsValGo cs (acc * 10 + (c.toNat - '0'.toNat)) else none

/-- The decimal value of a nonempty all-digit character list. -/
def digitsVal (cs : List Char) : Option Nat :=
  if cs = [] then none else digitsValGo cs 0

/-- Python `int(s)` on the plain optionally signed decimal literals that
occur in this development (int() additionally strips whitespace and
underscores, which never appear here); `none` is the uncaught
ValueError. -/
def pyStrToInt (s : String) : Option Int :=
  match s.data with
  | '-' :: rest => (digitsVal rest).map (fun n => -(n : Int))
  | '+' :: rest => (digitsVal rest).map (fun n => (n : Int))
  | cs => (digitsVal cs).map (fun n => (n : Int))

/-- A value stored in a parse-result mapping (spec section 3): the
converted value list of an argument, a nested mapping for a plain group,
the instance list of a recurring group, or a bare scalar (defaults
preseeded into the namespace by the builder, mixins.py 43-44). -/
inductive Value where
  | scalar (v : PyVal)
  | vals (vs : List PyVal)
  | map (m : List (String × Value))
  | maps (ms : List (List (String × Value)))

/-- A parse-result mapping: a Python dict with string keys, in insertion
order. -/
abbrev ResultMap := List (String × Value)

/-- Python dict assignment `m[k] = v`: an existing key keeps its position,
a new key is appended. -/
def dictSet (m : ResultMap) (k : String) (v : Value) : ResultMap :=
  if m.any (fun kv => kv.1 = k) then
    m.map (fun kv => if kv.1 = k then (k, v) else kv)
  else m ++ [(k, v)]

/-- Python `m.update(other)` on string-keyed dicts. -/
def dictUpdate (m other : ResultMap) : ResultMap :=
  other.foldl (fun acc kv => dictSet acc kv.1 kv.2) m

/-- Python `k in m` for a string key. -/
def dictContainsStr (m : ResultMap) (k : String) : Bool :=
  m.any (fun kv => kv.1 = k)

/-- Python `m.get(k)` for a string key. -/
def dictGet (m : ResultMap) (k : String) : Option Value :=
  (m.find? (fun kv => kv.1 = k)).map (fun kv => kv.2)

/-- Modelled from the spec: the insertion-ordered mapping with positional
lookup used for the parser's matching indices.  The external
`indexed_dict.IndexedDict` package imported by parser.py is not among the
repository sources; spec section 4.2 step 1 describes the structure as
ordered lookup structures, "insertion-ordered so relative position is
queryable".  Assigning an existing key keeps its position (ordered-dict
behaviour); looking up a missing key, querying the position of a missing
key, and taking the key at an out-of-range index are errors, as for
Python mappings and sequences. -/
structure IndexedDict where
  entries : List (String × Node)

/-- Python `k in d`. -/
def IndexedDict.containsKey (d : IndexedDict) (k : String) : Bool :=
  d.entries.any (fun kv => kv.1 = k)

/-- Python `d[k] = v`. -/
def IndexedDict.setKey (d : IndexedDict) (k : String) (v : Node) : IndexedDict :=
  if d.containsKey k then
    ⟨d.entries.map (fun kv => if kv.1 = k then (k, v) else kv)⟩
  else ⟨d.entries ++ [(k, v)]⟩

/-- Python `d[k]`, raising KeyError when absent. -/
def IndexedDict.getItem (d : IndexedDict) (k : String) : Except PErr Node :=
  match d.entries.find? (fun kv => kv.1 = k) with
  | some kv => .ok kv.2
  | none => .error (.keyError k)

/-- Python `d.position(k)`: index of a key in insertion order. -/
def IndexedDict.position (d : IndexedDict) (k : String) : Except PErr Nat :=
  match d.entries.findIdx? (fun kv => kv.1 = k) with
  | some i => .ok i
  | none => .error (.keyError k)

/-- Python `d.get_key_from_index(i)`: the key at an insertion-order index. -/
def IndexedDict.keyFromIndex (d : IndexedDict) (i : Nat) : Except PErr String :=
  match d.entries.get? i with
  | some kv => .ok kv.1
  | none => .error .indexError

/-- Python `d.pop(k)`. -/
def IndexedDict.popKey (d : IndexedDict) (k : String) : Except PErr IndexedDict :=
  if d.containsKey k then .ok ⟨d.entries.filter (fun kv => kv.1 ≠ k)⟩
  else .error (.keyError k)

/-- Python `d.pop_from_index(i)`. -/
def IndexedDict.popIndex (d : IndexedDict) (i : Nat) : Except PErr IndexedDict :=
  if i < d.entries.length then .ok ⟨d.entries.eraseIdx i⟩
  else .error .indexError

/-- The store `self._recurring_data`: group name to accumulated per-occurrence
result maps (parser.py 63). -/
abbrev RecurringData := List (String × List ResultMap)

/-- Python `k in self._recurring_data`. -/
def recContains (rd : RecurringData) (k : String) : Bool :=
  rd.any (fun kv => kv.1 = k)

/-- Python dict assignment on `self._recurring_data`. -/
def recSet (rd : RecurringData) (k : String) (v : List ResultMap) : RecurringData :=
  if recContains rd k then rd.map (fun kv => if kv.1 = k then (k, v) else kv)
  else rd ++ [(k, v)]

/-- The statement `self._recurring_data.update(...)` with an empty list for every
recurring child (parser.py 489-494); `dict.update` overwrites existing
entries. -/
def recurringReset : List Node → RecurringData → RecurringData
  | [], rd => rd
  | nd :: rest, rd =>
    recurringReset rest (if nd.isRecurringGroup then recSet rd nd.name [] else rd)

/-- The statement `self._recurring_data[name].append(group_result)` (parser.py 425);
only called under a containment guard. -/
def recurringAppend (rd : RecurringData) (k : String) (res : ResultMap) : RecurringData :=
  rd.map (fun kv => if kv.1 = k then (kv.1, kv.2 ++ [res]) else kv)

/-- The parser's mutable instance state (parser.py 57-64): the named
index, the positional index, the recurring accumulators and the consumed
named tokens.  These are attributes of the Parser instance, created in
`__init__` and mutated in place by the parsing methods; the embedding
threads them explicitly. -/
structure PState where
  parserArgs : IndexedDict
  positionalArgs : IndexedDict
  recurringData : RecurringData
  consumedArgs : List String

/-- The state of a freshly constructed Parser (parser.py 57-64). -/
def initState : PState := ⟨⟨[]⟩, ⟨[]⟩, [], []⟩

/-- Method `Parser._index_parser_args` (parser.py 474-483): register each child
under its name (and alias), positional children also in the positional
index.  Entries are added to the instance-level indices, never cleared. -/
def indexParserArgs : List Node → PState → PState
  | [], s => s
  | nd :: rest, s =>
    let s1 := if !(pyStartsWith nd.name "--") then
        { s with positionalArgs := s.positionalArgs.setKey nd.name nd }
      else s
    let s2 := { s1 with parserArgs := s1.parserArgs.setKey nd.name nd }
    let s3 := match nd.aliasName with
      | some al => { s2 with parserArgs := s2.parserArgs.setKey al nd }
      | none => s2
    indexParserArgs rest s3

/-- The `last_consumed` expression of parser.py 501-505: the most
recently consumed named token, falling back to the named index's first
key (an error on an empty index) when nothing has been consumed. -/
def lastConsumedOf (s : PState) : Except PErr String :=
  match s.consumedArgs.getLast? with
  | some t => .ok t
  | none => s.parserArgs.keyFromIndex 0

/-- The token-matching step at the top of each loop iteration of
`Parser._parse_args` (parser.py 500-514): compute the most recently
consumed named token and the next expected positional key (both computed
unconditionally, so either lookup can fail even for a known token), then
either record the token as consumed (when it is a named-index entry) or
compare index positions and fail with UnknownArgumentError. -/
def matchToken (s : PState) (token : String) (position : Nat) : Except PErr PState :=
  match lastConsumedOf s with
  | .error e => .error e
  | .ok lastConsumed =>
    match s.positionalArgs.keyFromIndex position with
    | .error e => .error e
    | .ok nextPositional =>
      if s.parserArgs.containsKey token then
        .ok { s with consumedArgs := s.consumedArgs ++ [token] }
      else
        match s.parserArgs.position lastConsumed with
        | .error e => .error e
        | .ok pl =>
          match s.parserArgs.position nextPositional with
          | .error e => .error e
          | .ok pp =>
            if pp < pl then .error (.unknownArgument token) else .ok s

/-- Method `Parser._pop_consumed_arg` (parser.py 543-552). -/
def popConsumedArg (argNode : Node) (token : String) (position : Nat)
    (s : PState) : Except PErr PState :=
  if pyStartsWith token "-" then
    let s1 := { s with consumedArgs := s.consumedArgs ++ [argNode.name] }
    match (if argNode.aliasName = some token then s1.parserArgs.popKey argNode.name
           else .ok s1.parserArgs) with
    | .error e => .error e
    | .ok pa1 =>
      match pa1.popKey token with
      | .error e => .error e
      | .ok pa2 => .ok { s1 with parserArgs := pa2 }
  else
    match s.parserArgs.popIndex position with
    | .error e => .error e
    | .ok pa => .ok { s with parserArgs := pa }

/-- The loop condition of `Parser._collect_argument_values`
(parser.py 438-449): a token is consumed as a value unless it starts with
a dash and the argument's declared type is neither int nor float. -/
def tokenIsValue (a : ArgSpec) (t : String) : Bool :=
  if pyStartsWith t "-" ∧ a.ptype ≠ PyType.int ∧ a.ptype ≠ PyType.float then false
  else true

/-- The while loop of `Parser._collect_argument_values` (parser.py
438-451), phrased over the remaining token suffix: consume while fewer
than `arg.num_args[1]` values are collected and the current token passes
`tokenIsValue`; `len` is the number of values collected so far. -/
def collectFrom (a : ArgSpec) : List String → Nat → List String
  | [], _ => []
  | t :: ts, len =>
    if len < a.numArgs.2 ∧ tokenIsValue a t = true then t :: collectFrom a ts (len + 1)
    else []

/-- Method `Parser._collect_argument_values` (parser.py 429-453).  Its `total`
parameter equals `len(tokens)` at the sole call site (parser.py 412), so
the bound `i < total` is realized here by recursing over the remaining
suffix `tokens.drop i`. -/
def collectArgumentValues (i : Nat) (a : ArgSpec) (tokens : List String) :
    List String × Nat :=
  let vs := collectFrom a (tokens.drop i) 0
  (vs, i + vs.length)

/-- Method `Parser._validate_argument_count` (parser.py 560-568). -/
def validateArgumentCount (a : ArgSpec) (values : List String) : Except PErr Unit :=
  if values.length < a.numArgs.1 then
    .error (.tooFew a.name a.numArgs.1 values.length)
  else if a.numArgs.2 < values.length then
    .error (.tooMany a.name a.numArgs.2 values.length)
  else .ok ()

/-- Method `Parser._validate_choices` (parser.py 554-558): `if arg.choices and
(invalid := set(converted) - set(arg.choices))`.  An empty choices set is
falsy and skips the check. -/
def validateChoices (a : ArgSpec) (converted : List PyVal) : Except PErr Unit :=
  match a.choices with
  | none => .ok ()
  | some cs =>
    if cs = [] then .ok ()
    else if converted.any (fun v => ¬ v ∈ cs) then .error (.invalidChoice a.name)
    else .ok ()

/-- Value conversion `arg.type(raw)` (parser.py 414).  int()/float() on
the plain signed decimal literals that occur here; a failed conversion is
an uncaught ValueError.  bool(raw) is Python truthiness of the string. -/
def pyConvert (t : PyType) (sv : String) : Except PErr PyVal :=
  match t with
  | .str => .ok (.s sv)
  | .int =>
    match pyStrToInt sv with
    | some n => .ok (.i n)
    | none => .error (.valueError sv)
  | .float =>
    match pyStrToInt sv with
    | some n => .ok (.f n)
    | none => .error (.valueError sv)
  | .bool => .ok (.b (!sv.isEmpty))

/-- Method `Parser._consume_argument` (parser.py 409-417). -/
def consumeArgument (i : Nat) (a : ArgSpec) (tokens : List String) :
    Except PErr (ResultMap × Nat) := do
  let (values, j) := collectArgumentValues i a tokens
  validateArgumentCount a values
  let converted ← values.mapM (pyConvert a.ptype)
  validateChoices a converted
  pure ([(a.name, Value.vals converted)], j)

/-- The mutually recursive call shapes of the parsing engine:
`_parse_args` entry, its token loop, `_parse_tokens`, and
`_consume_group`. -/
inductive Call where
  | args (children : List Node) (tokens : List String) (s : PState)
  | loop (tokens : List String) (total i position : Nat) (result : ResultMap) (s : PState)
  | toks (token : String) (tokens : List String) (i position : Nat) (s : PState)
  | grp (gname : String) (gchildren : List Node) (i : Nat) (tokens : List String) (s : PState)

/-- The recursive-descent engine (parser.py 409-552), fuelled.  `.args`
is `_parse_args` (parser.py 485-524): it indexes the children, resets the
recurring accumulators and enters the token loop.  `.loop` is that loop:
match the token, dispatch through `_parse_tokens`, merge the returned
mapping, and overwrite every recurring accumulator entry into the running
result.  `.toks` is `_parse_tokens` (parser.py 526-541): resolve the
token in the named index (KeyError when absent), pop the consumed entry
unless it names a recurring group, then consume an argument or descend
into a group.  `.grp` is `_consume_group` (parser.py 419-427): recurse on
the token suffix `tokens[i:]` and return the recursion's own
slice-relative cursor, exactly as the source does.  The source loop can
run forever (a recurring group is never removed from the index and a
group recursion can return cursor 0), hence the fuel; a result other than
`fuelExhausted` is the true outcome. -/
def run : Nat → Call → Except PErr (ResultMap × Nat × PState)
  | 0, _ => .error .fuelExhausted
  | fuel + 1, c =>
    match c with
    | .args children tokens s =>
      let s1 := indexParserArgs children s
      let s2 := { s1 with recurringData := recurringReset children s1.recurringData }
      run fuel (.loop tokens tokens.length 0 0 [] s2)
    | .loop tokens total i position result s =>
      if i < total then
        let token := tokens.getD i ""
        match matchToken s token position with
        | .error e => .error e
        | .ok s1 =>
          match run fuel (.toks token tokens (i + 1) position s1) with
          | .error e => .error e
          | .ok (results, i2, s2) =>
            let result2 := dictUpdate result results
            let result3 := s2.recurringData.foldl
              (fun acc kv => dictSet acc kv.1 (Value.maps kv.2)) result2
            run fuel (.loop tokens total i2 (position + 1) result3 s2)
      else .ok (result, i, s)
    | .toks token tokens i position s =>
      match s.parserArgs.getItem token with
      | .error e => .error e
      | .ok argNode =>
        match (if recContains s.recurringData token then .ok s
               else popConsumedArg argNode token position s) with
        | .error e => .error e
        | .ok s2 =>
          match argNode with
          | .arg a =>
            match consumeArgument i a tokens with
            | .error e => .error e
            | .ok (res, i2) => .ok (res, i2, s2)
          | .group gname _ _ _ _ gchildren => run fuel (.grp gname gchildren i tokens s2)
    | .grp gname gchildren i tokens s =>
      match run fuel (.args gchildren (tokens.drop i) s) with
      | .error e => .error e
      | .ok (groupResult, iRel, s2) =>
        if recContains s2.recurringData gname then
          .ok ([], iRel,
            { s2 with recurringData := recurringAppend s2.recurringData gname groupResult })
        else .ok ([(gname, Value.map groupResult)], iRel, s2)

/-- Method `Parser._parse_args` (parser.py 485-524). -/
def parseArgs (fuel : Nat) (children : List Node) (tokens : List String)
    (s : PState) : Except PErr (ResultMap × Nat × PState) :=
  run fuel (.args children tokens s)

/-- Method `Parser._flatten_result` (parser.py 455-472): splice nested mappings
of non-recurring names into the top level, pass everything else through. -/
def flattenResult (s : PState) (result : ResultMap) : ResultMap :=
  result.foldl (fun acc kv =>
    match kv.2 with
    | Value.map m =>
      if recContains s.recurringData kv.1 then dictSet acc kv.1 (Value.map m)
      else m.foldl (fun acc2 kv2 => dictSet acc2 kv2.1 kv2.2) acc
    | v => dictSet acc kv.1 v) []

/-- Python membership test `arg in result` as used by the validators
(parser.py 584, 600, 603): `result` is a dict whose keys are strings
while `arg` is an Argument/ArgumentGroup instance.  `str.__eq__` on a
non-string returns NotImplemented and the fallback `object.__eq__`
compares identity, so no string key ever equals the node object. -/
def strEqPyNode (_k : String) (_n : Node) : Bool := false

/-- Python `arg in result` for a node object against a string-keyed dict. -/
def nodeInResult (n : Node) (m : ResultMap) : Bool :=
  m.any (fun kv => strEqPyNode kv.1 n)

/-- Method `Parser._validate_mutually_exclusive_arguments` (parser.py 575-586). -/
def validateMutex (rootChildren : List Node) (result : ResultMap) : Except PErr Unit :=
  match rootChildren with
  | [] => .ok ()
  | Node.arg _ :: rest => validateMutex rest result
  | Node.group _ _ gt _ _ gchildren :: rest =>
    if gt = GroupType.mutex then
      let used := (gchildren.filter (fun c => nodeInResult c result)).map Node.name
      if 1 < used.length then .error (.mutuallyExclusive used)
      else validateMutex rest result
    else validateMutex rest result

/-- Methods `Parser._validate_first_present_rest_required` /
`_validate_first_absent_rest_forbidden` (parser.py 615-641).  When the
raise is reached, the code constructs
`exceptions.ConditionalDependencyError`, but exceptions.py defines no
such class, so the attribute access itself raises AttributeError. -/
def validateConditionalRelation (ct : CondType) (condPresent depPresent : Bool) :
    Except PErr Unit :=
  match ct with
  | .firstPresentRestRequired =>
    if condPresent && !depPresent then .error (.attributeError "ConditionalDependencyError")
    else .ok ()
  | .firstAbsentRestForbidden =>
    if !condPresent && depPresent then .error (.attributeError "ConditionalDependencyError")
    else .ok ()

/-- The dependent loop of `_validate_conditional_arguments`
(parser.py 601-613). -/
def validateCondDeps (ct : CondType) (conditional : Node) (deps : List Node)
    (result : ResultMap) : Except PErr Unit :=
  match deps with
  | [] => .ok ()
  | dep :: rest => do
    validateConditionalRelation ct (nodeInResult conditional result) (nodeInResult dep result)
    validateCondDeps ct conditional rest result

/-- Method `Parser._validate_conditional_arguments` (parser.py 588-613). -/
def validateConditional (rootChildren : List Node) (result : ResultMap) :
    Except PErr Unit :=
  match rootChildren with
  | [] => .ok ()
  | Node.arg _ :: rest => validateConditional rest result
  | Node.group _ _ gt st _ gchildren :: rest =>
    if gt = GroupType.conditional then
      match st with
      | none => .error .notImplementedError
      | some ct =>
        match gchildren with
        | [] => .error .indexError
        | conditional :: deps => do
          validateCondDeps ct conditional deps result
          validateConditional rest result
    else validateConditional rest result

/-- Method `Parser._validate_required_arguments` (parser.py 570-573). -/
def validateRequired (rootChildren : List Node) (flat : ResultMap) : Except PErr Unit :=
  match rootChildren with
  | [] => .ok ()
  | nd :: rest =>
    if nd.required && !dictContainsStr flat nd.name then .error (.missingRequired nd.name)
    else validateRequired rest flat

/-- The final namespace-storing loop of `Parser.parse` (parser.py
401-406).  When a root child's name is in the flattened result the code
executes `self._namespace.values[arg.name] = ...`; `Names` (names.py) has
no attribute `values`, so its `__getattr__` raises AttributeError. -/
def namespaceFinal (rootChildren : List Node) (flat : ResultMap)
    (ns : List (String × Value)) : Except PErr (List (String × Value)) :=
  match rootChildren with
  | [] => .ok ns
  | nd :: rest =>
    if dictContainsStr flat nd.name then .error (.attributeError "values")
    else if nd.required then .error (.missingRequired nd.name)
    else namespaceFinal rest flat ns

/-- Defaults preseeded into the namespace by the schema builder
(mixins.py 43-44), gathered over the declared tree in declaration order. -/
def initNamespace : List Node → List (String × Value) → List (String × Value)
  | [], ns => ns
  | Node.arg a :: rest, ns =>
    let ns2 := match a.defaultVal with
      | some v => dictSet ns a.name (Value.scalar v)
      | none => ns
    initNamespace rest ns2
  | Node.group _ _ _ _ _ gchildren :: rest, ns =>
    initNamespace rest (initNamespace gchildren ns)

/-- The front half of `Parser.parse` (parser.py 393-398): run the engine
on a fresh parser state, validate mutual exclusion and conditionals, and
flatten. -/
def parseFlattened (fuel : Nat) (rootChildren : List Node) (tokens : List String) :
    Except PErr ResultMap := do
  let (result, _, s) ← parseArgs fuel rootChildren tokens initState
  validateMutex rootChildren result
  validateConditional rootChildren result
  pure (flattenResult s result)

/-- Method `Parser.parse` (parser.py 343-407) on a freshly constructed parser. -/
def parse (fuel : Nat) (rootChildren : List Node) (tokens : List String) :
    Except PErr (List (String × Value)) := do
  let flat ← parseFlattened fuel rootChildren tokens
  validateRequired rootChildren flat
  namespaceFinal rootChildren flat (initNamespace rootChildren [])

/-- The result mapping of a successful engine outcome. -/
def resultOf (x : Except PErr (ResultMap × Nat × PState)) : Option ResultMap :=
  (x.toOption).map (fun r => r.1)

/-- Reading a Python instance attribute from its store: `none` means the
attribute has not been assigned yet, and reading it raises
AttributeError naming the attribute. -/
def readAttr {α : Type} (store : Option α) (attr : String) : Except PErr α :=
  match store with
  | some v => .ok v
  | none => .error (.attributeError attr)

/-- The alias check of `AshParser.validate_alias` (types_.py 60-80) over
the alias's characters, preserving the evaluation order of the Python
condition: `len > 2`, then `len == 2 and alias[0] != "-"`, then
`not alias[-1].isalpha()` (which indexes the string and raises IndexError
on an empty alias), then the bare-letter normalization
`alias = "-" + alias`.  Positionality of the node is never consulted. -/
def validateAliasChars (cs : List Char) : Except PErr (List Char) :=
  if 2 < cs.length then .error (.invalidAlias (String.mk cs))
  else if cs.length = 2 ∧ cs.headD ' ' ≠ '-' then .error (.invalidAlias (String.mk cs))
  else
    match cs.getLast? with
    | none => .error .indexError
    | some last =>
      if !last.isAlpha then .error (.invalidAlias (String.mk cs))
      else .ok (if cs.length = 1 then '-' :: cs else cs)

/-- Method `AshParser.validate_alias` (types_.py 60-80): `None` passes through,
otherwise the character-level check runs and the (possibly normalized)
alias is stored back. -/
def validateAlias : Option String → Except PErr (Option String)
  | none => .ok none
  | some a => (validateAliasChars a.data).map (fun cs => some (String.mk cs))

/-- The num_args branch of `Argument._post_init` together with
`Argument._parse_num_args` (argument.py 94-109 and 138-145): `None` gives
(1, 1); `"?"`, `"*"`, `"+"` give (0, 1), (0, sys.maxsize),
(1, sys.maxsize); an integer k gives (k, k) after rejecting negatives
with InvalidValueError(k, "num_args", "cannot be negative"). -/
def postInitNumArgs : Option NumArgsSpec → Except PErr (Nat × Nat)
  | none => .ok (1, 1)
  | some .qmark => .ok (0, 1)
  | some .star => .ok (0, pyMaxsize)
  | some .plus => .ok (1, pyMaxsize)
  | some (.intSpec k) =>
    if k < 0 then .error (.invalidValue k "num_args" "cannot be negative")
    else .ok (k.toNat, k.toNat)

/-- The derived integer choices `set(range(min, max + 1))`
(argument.py 132). -/
def pyRangeChoices (lo hi : Int) : List PyVal :=
  (List.range (hi - lo + 1).toNat).map (fun j => PyVal.i (lo + j))

/-- The body of `Argument._post_init` (argument.py 73-136) as a function
of the argument's (fully assigned) attributes, returning the derived
arity bounds and choices.  It follows the source order: num_args
processing; required/default conflict; the min/max range branch for
int/float (where `if not self._min` treats both None and 0 as unset,
argument.py 121-124, and an explicit choices list conflicts with the
range); and the final name-shape check rejecting single-dash names with
ArgumentError. -/
def argumentPostInit (name : String) (ptype : PyType)
    (numSpec : Option NumArgsSpec) (required : Bool)
    (defaultVal : Option PyVal) (choices : Option (List PyVal))
    (minV maxV : Option Int) : Except PErr ((Nat × Nat) × Option (List PyVal)) := do
  let bounds ← postInitNumArgs numSpec
  if required ∧ defaultVal ≠ none then
    throw (.argumentError "Cannot specify both required and a default value")
  let choicesOut ←
    if (ptype = PyType.int ∨ ptype = PyType.float) ∧ (minV ≠ none ∨ maxV ≠ none) then do
      let lo := match minV with
        | none => -(pyMaxsize : Int)
        | some m => if m = 0 then -(pyMaxsize : Int) else m
      let hi := match maxV with
        | none => (pyMaxsize : Int)
        | some m => if m = 0 then (pyMaxsize : Int) else m
      if hi < lo then throw (.argumentError "Min must be less than max")
      if choices ≠ none then throw (.mutuallyExclusive ["range", "choices"])
      pure (some (pyRangeChoices lo hi))
    else pure choices
  if pyStartsWith name "-" ∧ ¬ pyStartsWith name "--" then
    throw (.argumentError "Argument names must start with two or zero dashes")
  pure (bounds, choicesOut)

/-- Constructor `Argument.__init__` (argument.py 17-71).  Its first statement is
`super().__init__(...)`; `AshParser.__init__` (types_.py 27-54) assigns
the base attributes and then invokes `self._post_init()`, which
dynamically dispatches to the overriding `Argument._post_init` BEFORE
argument.py 64 has assigned `self._num_args`, so that read raises
AttributeError.  The continuation written after the first read is the
rest of the construction sequence (`validate_alias`, the field
assignments, and the second `_post_init()` call at argument.py 71) that
would run if the first dispatch returned. -/
def argumentNew (name : String) (ptype : PyType) (aliasOpt : Option String)
    (numSpec : Option NumArgsSpec) (required : Bool) (defaultVal : Option PyVal)
    (choices : Option (List PyVal)) (minV maxV : Option Int) :
    Except PErr ArgSpec := do
  let specAtFirstCall ← readAttr (none : Option (Option NumArgsSpec)) "_num_args"
  let _ ← argumentPostInit name ptype specAtFirstCall required defaultVal choices minV maxV
  let al ← validateAlias aliasOpt
  let (bounds, choicesOut) ←
    argumentPostInit name ptype numSpec required defaultVal choices minV maxV
  pure { name := name, aliasName := al, ptype := ptype, numArgs := bounds,
         required := required, defaultVal := defaultVal, choices := choicesOut }

/-- A constructed ArgumentGroup's attributes relevant here
(group.py 39-76 / types_.py 27-58). -/
structure GroupObj where
  name : String
  aliasName : Option String
  positional : Bool
  gtype : GroupType
  subtype : Option CondType
  required : Bool
deriving DecidableEq, Repr

/-- Constructor `ArgumentGroup.__init__` (group.py 39-76): `AshParser.__init__` runs
with the base `_post_init` (types_.py 56-58, setting the positional flag
for names without a two-dash start, since ArgumentGroup does not override
it), then `validate_alias`, then the group fields are assigned. -/
def groupNew (name : String) (aliasOpt : Option String) (required : Bool)
    (gtype : GroupType) (subtype : Option CondType) : Except PErr GroupObj := do
  let positional := !(pyStartsWith name "--")
  let al ← validateAlias aliasOpt
  pure { name := name, aliasName := al, positional := positional,
         gtype := gtype, subtype := subtype, required := required }

/-- The C1 scenario schema: required positional string `input`;
optional int `--count` with alias `-c` and default 1. -/
def inputArg : ArgSpec := { name := "input", ptype := .str, required := true }

/-- The optional int `--count` argument of the C1 scenario. -/
def countArg : ArgSpec :=
  { name := "--count", aliasName := some "-c", ptype := .int, defaultVal := some (.i 1) }

/-- Root children for the C1 scenario. -/
def c1Root : List Node := [.arg inputArg, .arg countArg]

/-- The `--json` flag of the mutual-exclusion scenario. -/
def jsonArg : ArgSpec := { name := "--json", ptype := .bool }

/-- The `--xml` flag of the mutual-exclusion scenario. -/
def xmlArg : ArgSpec := { name := "--xml", ptype := .bool }

/-- Root children for the C2 scenario: one mutually-exclusive group
(named `output` as in the add_mutually_exclusive_group docstring) with
children `--json` and `--xml`. -/
def c2Root : List Node :=
  [.group "output" none .mutex none false [.arg jsonArg, .arg xmlArg]]

/-- The `--use-db` condition flag of the conditional scenario. -/
def useDbArg : ArgSpec := { name := "--use-db", ptype := .bool }

/-- The `--db-name` dependent of the conditional scenario. -/
def dbNameArg : ArgSpec := { name := "--db-name", ptype := .str }

/-- Root children for the C3 scenario: one conditional group `db` with
relation FIRST_PRESENT_REST_REQUIRED and children `--use-db`,
`--db-name`. -/
def c3Root : List Node :=
  [.group "db" none .conditional (some .firstPresentRestRequired) false
    [.arg useDbArg, .arg dbNameArg]]

/-- A recurring group `--job` with children `name` and `duration`
(the add_recurring_group docstring scenario). -/
def jobGroup : Node :=
  .group "--job" none .recurring none false
    [.arg { name := "name", ptype := .str }, .arg { name := "duration", ptype := .int }]

/-- Root children for the C4 counterexample: a single declared recurring
group. -/
def c4Root : List Node := [jobGroup]

/-- A positional string argument used by the C4 witness schema. -/
def srcArg : ArgSpec := { name := "src", ptype := .str }

/-- Root children for the C4 witness: a positional, a named int argument
and a declared recurring group. -/
def w4Root : List Node := [.arg srcArg, .arg countArg, jobGroup]

/-- The engine result of parsing `["--count", "5"]` against `w4Root`. -/
def w4Res : ResultMap :=
  [("--count", Value.vals [PyVal.i 5]), ("--job", Value.maps [])]

/-- The engine state after parsing `["--count", "5"]` against `w4Root`:
`--count` was popped from the named index, the recurring accumulator for
`--job` is the (empty) list, and the consumed-token list records the
token once from matching and once from popping. -/
def w4State : PState :=
  ⟨⟨[("src", .arg srcArg), ("-c", .arg countArg), ("--job", jobGroup)]⟩,
   ⟨[("src", .arg srcArg)]⟩, [("--job", [])], ["--count", "--count"]⟩

/-- The parser state underlying a call shape. -/
def stateOfCall : Call → PState
  | .args _ _ s => s
  | .loop _ _ _ _ _ s => s
  | .toks _ _ _ _ s => s
  | .grp _ _ _ _ s => s

/-- An int argument expecting one to three values, used to exercise the
arity collector. -/
def c6Arg : ArgSpec := { name := "nums", ptype := .int, numArgs := (1, 3) }

/-- A declared positional node for the matching-step scenario. -/
def c7PosNode : Node := .arg { name := "pos1", ptype := .str }

/-- A declared named node for the matching-step scenario. -/
def c7BNode : Node := .arg { name := "--b", ptype := .str }

/-- A parser state in which the named flag `--b` (index position 1) has
been consumed while the next expected positional `pos1` sits at index
position 0: an unknown token must now be rejected. -/
def c7State : PState :=
  ⟨⟨[("pos1", c7PosNode), ("--b", c7BNode)]⟩, ⟨[("pos1", c7PosNode)]⟩, [], ["--b"]⟩

/-- The group produced by constructing a positional group named `g` with
the bare-letter alias `a`. -/
def c8GroupLit : GroupObj :=
  { name := "g", aliasName := some "-a", positional := true,
    gtype := GroupType.argument, subtype := none, required := false }

/-- The validators' membership test compares a node object against string
keys and is therefore false on every entry of every result map. -/
theorem nodeInResult_false (n : Node) (m : ResultMap) : nodeInResult n m = false := by
  simp [nodeInResult, strEqPyNode]

/-- C1: the claim expects parse(["file.txt"]) to yield input "file.txt"
and count 1, but the engine resolves every token through the named index,
so the positional value token raises KeyError (parser.py 529); the third
scenario, parse(["-c", "5"]), does fail with
MissingRequiredArgumentError("input") as claimed. -/
theorem c1_scenarios :
    parse 40 c1Root ["file.txt"] = .error (.keyError "file.txt") ∧
    parse 40 c1Root ["-c", "5"] = .error (.missingRequired "input") :=
  ⟨rfl, rfl⟩

/-- C2: the mutual-exclusion validator can never fire, because it tests
node objects for membership in a string-keyed dict (parser.py 584), so it
accepts every result map; and the claimed scenario never reaches it: the
group-child token `--json` is not in the named index (only the group name
is) and raises KeyError. -/
theorem c2_mutual_exclusion :
    (∀ result : ResultMap, validateMutex c2Root result = .ok ()) ∧
    parse 40 c2Root ["--json", "true", "--xml", "true"] = .error (.keyError "--json") := by
  refine ⟨fun result => ?_, rfl⟩
  simp [c2Root, validateMutex, nodeInResult_false]

/-- C3: the conditional validator can never fire, because presence checks
compare node objects against string keys (parser.py 600, 603), so it
accepts every result map; and the claimed scenario never reaches it: the
token `--use-db` is not in the named index and raises KeyError. -/
theorem c3_conditional_dependency :
    (∀ result : ResultMap, validateConditional c3Root result = .ok ()) ∧
    parse 40 c3Root ["--use-db", "true"] = .error (.keyError "--use-db") := by
  refine ⟨fun result => ?_, rfl⟩
  simp [c3Root, validateConditional, validateCondDeps, validateConditionalRelation,
    nodeInResult_false, bind, Except.bind]

/-- C4 counterexample: with a declared recurring group `--job` and the
empty token list, the engine succeeds but its result contains no entry
for `--job` (the recurring entries are only written inside the token
loop, parser.py 521-522, which never runs). -/
theorem c4_empty_tokens_counterexample :
    (resultOf (parseArgs 40 c4Root [] initState)).map
      (fun r => dictContainsStr r "--job") = some false := rfl

/-- C5: the arity table of `_post_init`/`_parse_num_args`
(argument.py 94-109, 138-145) is as claimed, with sys.maxsize as the
unbounded maximum, and a negative integer is rejected there with
InvalidValueError; but actually constructing the argument raises
AttributeError instead, because `AshParser.__init__` invokes the
overriding `_post_init` before `_num_args` is assigned. -/
theorem c5_arity_bounds :
    postInitNumArgs none = .ok (1, 1) ∧
    postInitNumArgs (some .qmark) = .ok (0, 1) ∧
    postInitNumArgs (some .star) = .ok (0, pyMaxsize) ∧
    postInitNumArgs (some .plus) = .ok (1, pyMaxsize) ∧
    (∀ k : Int, 0 ≤ k → postInitNumArgs (some (.intSpec k)) = .ok (k.toNat, k.toNat)) ∧
    (∀ k : Int, k < 0 → postInitNumArgs (some (.intSpec k)) =
      .error (.invalidValue k "num_args" "cannot be negative")) ∧
    argumentNew "foo" .int none (some (.intSpec (-1))) false none none none none =
      .error (.attributeError "_num_args") := by
  refine ⟨rfl, rfl, rfl, rfl, fun k hk => ?_, fun k hk => ?_, rfl⟩
  · simp only [postInitNumArgs]
    rw [if_neg (by omega)]
  · simp only [postInitNumArgs]
    rw [if_pos hk]

/-- Witness for C5 at concrete arities 3 and -1. -/
theorem c5_arity_bounds_witness :
    postInitNumArgs (some (.intSpec 3)) = .ok (3, 3) ∧
    postInitNumArgs (some (.intSpec (-1))) =
      .error (.invalidValue (-1) "num_args" "cannot be negative") :=
  ⟨c5_arity_bounds.2.2.2.2.1 3 (by decide), c5_arity_bounds.2.2.2.2.2.1 (-1) (by decide)⟩

/-- C8 counterexample: a positional node (group named `output`, no
two-dash start) constructed with alias `-x` is accepted, with the alias
kept — `validate_alias` (types_.py 60-80) never consults positionality,
so the claimed rejection does not exist. -/
theorem c8_positional_alias_accepted :
    groupNew "output" (some "-x") false .argument none =
      .ok { name := "output", aliasName := some "-x", positional := true,
            gtype := .argument, subtype := none, required := false } := rfl

/-- Any alias accepted by the character-level check comes out as a dash
followed by a single letter. -/
theorem validateAliasChars_ok {cs out : List Char}
    (h : validateAliasChars cs = .ok out) :
    ∃ c : Char, out = ['-', c] ∧ c.isAlpha = true := by
  match cs with
  | [] => simp [validateAliasChars] at h
  | [c] =>
    by_cases ha : c.isAlpha
    · refine ⟨c, ?_, ha⟩
      simp [validateAliasChars, ha] at h
      exact h.symm
    · simp [validateAliasChars, ha] at h
  | [c1, c2] =>
    by_cases h1 : c1 = '-'
    · subst h1
      by_cases ha : c2.isAlpha
      · refine ⟨c2, ?_, ha⟩
        simp [validateAliasChars, ha] at h
        exact h.symm
      · simp [validateAliasChars, ha] at h
    · simp [validateAliasChars, h1] at h
  | c1 :: c2 :: c3 :: rest =>
    simp [validateAliasChars] at h

/-- C8 amended: every successfully constructed node with a non-null alias
holds it in canonical single-dash form (a dash plus one letter, with a
bare letter normalized by prefixing a dash); the positionality
restriction of the claim is not enforced anywhere. -/
theorem c8_alias_canonical (nameV aliasV : String) (req : Bool)
    (gt : GroupType) (st : Option CondType) (g : GroupObj)
    (h : groupNew nameV (some aliasV) req gt st = .ok g) :
    ∃ c : Char, g.aliasName = some (String.mk ['-', c]) ∧ c.isAlpha = true := by
  simp only [groupNew, validateAlias] at h
  cases hv : validateAliasChars aliasV.data with
  | error e => rw [hv] at h; simp [Except.map, bind, Except.bind] at h
  | ok cs =>
    rw [hv] at h
    obtain ⟨c, hc, ha⟩ := validateAliasChars_ok hv
    subst hc
    refine ⟨c, ?_, ha⟩
    simp only [Except.map, bind, Except.bind, pure, Except.pure, Except.ok.injEq] at h
    rw [← h]

/-- Witness for C8 amended: the positional group `g` with bare-letter
alias `a` constructs successfully and carries the canonical alias `-a`. -/
theorem c8_alias_canonical_witness :
    ∃ c : Char, c8GroupLit.aliasName = some (String.mk ['-', c]) ∧ c.isAlpha = true :=
  c8_alias_canonical "g" "a" false .argument none c8GroupLit rfl

/-- C9: parsing is a pure function of the declared tree, the tokens and
the fuel, started from the fresh per-invocation state `initState` that
models a newly constructed Parser instance's indices, accumulators and
consumed-token list; two structurally identical trees therefore yield
identical flattened results and identical parse outcomes. -/
theorem c9_independent_parsers_agree (fuel : Nat) (r1 r2 : List Node)
    (tokens : List String) (h : r1 = r2) :
    parseFlattened fuel r1 tokens = parseFlattened fuel r2 tokens ∧
    parse fuel r1 tokens = parse fuel r2 tokens := by
  subst h; exact ⟨rfl, rfl⟩

/-- Witness for C9 on the C1 schema and tokens `["-c", "5"]`. -/
theorem c9_independent_parsers_agree_witness :
    c1Root = c1Root ∧
    (parseFlattened 40 c1Root ["-c", "5"] = parseFlattened 40 c1Root ["-c", "5"] ∧
     parse 40 c1Root ["-c", "5"] = parse 40 c1Root ["-c", "5"]) :=
  ⟨rfl, c9_independent_parsers_agree 40 c1Root c1Root ["-c", "5"] rfl⟩

/-- Reading `getD` after `drop` reads at the shifted index. -/
theorem getD_drop (l : List String) (i m : Nat) (d : String) :
    (l.drop i).getD m d = l.getD (i + m) d := by
  induction i generalizing l with
  | zero => simp
  | succ n ih =>
    cases l with
    | nil => simp
    | cons x xs =>
      rw [List.drop_succ_cons, ih xs, show n + 1 + m = n + m + 1 by omega]
      rfl

/-- The collector's continue-condition, read as the claim states it: a
token is consumable unless it starts with a dash and the declared type is
not numeric. -/
theorem tokenIsValue_iff (a : ArgSpec) (t : String) :
    tokenIsValue a t = true ↔
      (pyStartsWith t "-" = true → a.ptype = PyType.int ∨ a.ptype = PyType.float) := by
  by_cases hs : pyStartsWith t "-" = true
  · by_cases hi : a.ptype = PyType.int
    · simp [tokenIsValue, hs, hi]
    · by_cases hf : a.ptype = PyType.float
      · simp [tokenIsValue, hs, hi, hf]
      · simp [tokenIsValue, hs, hi, hf]
  · simp [tokenIsValue, hs]

/-- What the collector returns is an initial segment of the remaining
tokens. -/
theorem collectFrom_take (a : ArgSpec) (rest : List String) (len : Nat) :
    collectFrom a rest len = rest.take (collectFrom a rest len).length := by
  induction rest generalizing len with
  | nil => simp [collectFrom]
  | cons t ts ih =>
    by_cases h : len < a.numArgs.2 ∧ tokenIsValue a t = true
    · simp only [collectFrom, if_pos h, List.length_cons, List.take_succ_cons]
      exact congrArg (t :: ·) (ih (len + 1))
    · simp [collectFrom, if_neg h]

/-- A nonempty collection never exceeds the arity maximum. -/
theorem collectFrom_le_max (a : ArgSpec) (rest : List String) (len : Nat)
    (h : collectFrom a rest len ≠ []) :
    len + (collectFrom a rest len).length ≤ a.numArgs.2 := by
  induction rest generalizing len with
  | nil => simp [collectFrom] at h
  | cons t ts ih =>
    by_cases hc : len < a.numArgs.2 ∧ tokenIsValue a t = true
    · simp only [collectFrom, if_pos hc, List.length_cons]
      by_cases he : collectFrom a ts (len + 1) = []
      · simp [he]
        omega
      · have := ih (len + 1) he
        omega
    · simp [collectFrom, if_neg hc] at h

/-- Every collected token passes the continue-condition. -/
theorem collectFrom_all_valid (a : ArgSpec) (rest : List String) (len : Nat) :
    ∀ k, k < (collectFrom a rest len).length → tokenIsValue a (rest.getD k "") = true := by
  induction rest generalizing len with
  | nil => simp [collectFrom]
  | cons t ts ih =>
    intro k hk
    by_cases hc : len < a.numArgs.2 ∧ tokenIsValue a t = true
    · simp only [collectFrom, if_pos hc, List.length_cons] at hk
      cases k with
      | zero => simpa using hc.2
      | succ k' => exact ih (len + 1) k' (by omega)
    · simp [collectFrom, if_neg hc] at hk

/-- Collection stops only for a reason: if tokens remain and the maximum
was not reached, the next token fails the continue-condition. -/
theorem collectFrom_stop (a : ArgSpec) (rest : List String) (len : Nat)
    (hlt : (collectFrom a rest len).length < rest.length)
    (hmax : len + (collectFrom a rest len).length < a.numArgs.2) :
    tokenIsValue a (rest.getD (collectFrom a rest len).length "") = false := by
  induction rest generalizing len with
  | nil => simp at hlt
  | cons t ts ih =>
    by_cases hc : len < a.numArgs.2 ∧ tokenIsValue a t = true
    · simp only [collectFrom, if_pos hc, List.length_cons] at hlt hmax ⊢
      exact ih (len + 1) (by omega) (by omega)
    · simp only [collectFrom, if_neg hc, List.length_nil] at hmax ⊢
      rcases Bool.eq_false_or_eq_true (tokenIsValue a t) with hv | hv
      · exact absurd ⟨by omega, hv⟩ hc
      · simpa using hv

/-- C6: the arity collector consumes exactly the maximal adjacent run of
tokens satisfying (a) fewer than `arity.max` collected, (b) cursor in
bounds, (c) the token does not start with a dash unless the declared type
is int or float; and the count validator raises TooFewArgumentsError
below `arity.min` and TooManyArgumentsError above `arity.max`, carrying
the node name, the violated bound and the actual count. -/
theorem c6_arity_collector (a : ArgSpec) (tokens : List String) (i : Nat)
    (hi : i ≤ tokens.length) :
    (collectArgumentValues i a tokens).2 = i + (collectArgumentValues i a tokens).1.length ∧
    (collectArgumentValues i a tokens).1 =
      (tokens.drop i).take (collectArgumentValues i a tokens).1.length ∧
    (collectArgumentValues i a tokens).1.length ≤ a.numArgs.2 ∧
    (collectArgumentValues i a tokens).2 ≤ tokens.length ∧
    (∀ k, i ≤ k → k < (collectArgumentValues i a tokens).2 →
      (pyStartsWith (tokens.getD k "") "-" = true →
        a.ptype = PyType.int ∨ a.ptype = PyType.float)) ∧
    ((collectArgumentValues i a tokens).2 < tokens.length →
      (collectArgumentValues i a tokens).1.length < a.numArgs.2 →
      tokenIsValue a (tokens.getD ((collectArgumentValues i a tokens).2) "") = false) ∧
    (∀ values : List String,
      (validateArgumentCount a values =
        .error (.tooFew a.name a.numArgs.1 values.length) ↔
          values.length < a.numArgs.1) ∧
      (validateArgumentCount a values =
        .error (.tooMany a.name a.numArgs.2 values.length) ↔
          a.numArgs.1 ≤ values.length ∧ a.numArgs.2 < values.length) ∧
      (validateArgumentCount a values = .ok () ↔
        a.numArgs.1 ≤ values.length ∧ values.length ≤ a.numArgs.2)) := by
  have hvs : (collectArgumentValues i a tokens).1 = collectFrom a (tokens.drop i) 0 := rfl
  have hj : (collectArgumentValues i a tokens).2 =
      i + (collectFrom a (tokens.drop i) 0).length := rfl
  have hdroplen : (tokens.drop i).length = tokens.length - i := List.length_drop i tokens
  have hlen : (collectFrom a (tokens.drop i) 0).length ≤ (tokens.drop i).length := by
    conv_lhs => rw [collectFrom_take a (tokens.drop i) 0]
    rw [List.length_take]
    omega
  refine ⟨rfl, ?_, ?_, ?_, ?_, ?_, ?_⟩
  · rw [hvs]
    exact collectFrom_take a (tokens.drop i) 0
  · rw [hvs]
    by_cases he : collectFrom a (tokens.drop i) 0 = []
    · simp [he]
    · have := collectFrom_le_max a (tokens.drop i) 0 he
      omega
  · rw [hj]
    omega
  · intro k hik hkj
    rw [hj] at hkj
    have hk' : k - i < (collectFrom a (tokens.drop i) 0).length := by omega
    have hv := collectFrom_all_valid a (tokens.drop i) 0 (k - i) hk'
    rw [getD_drop, show i + (k - i) = k by omega] at hv
    exact (tokenIsValue_iff a _).mp hv
  · intro hlt hmax
    rw [hj] at hlt ⊢
    rw [hvs] at hmax
    have hlt' : (collectFrom a (tokens.drop i) 0).length < (tokens.drop i).length := by omega
    have hs := collectFrom_stop a (tokens.drop i) 0 hlt' (by omega)
    rw [getD_drop] at hs
    exact hs
  · intro values
    by_cases h1 : values.length < a.numArgs.1
    · simp [validateArgumentCount, h1]
      try omega
    · by_cases h2 : a.numArgs.2 < values.length
      · simp [validateArgumentCount, h1, h2]
        try omega
      · simp [validateArgumentCount, h1, h2]
        try omega

/-- Witness for C6: an int-typed argument with arity (1, 3) collects the
dash-prefixed numeric-looking tokens `-2` and `--flag` as values and
stops at the arity maximum. -/
theorem c6_arity_collector_witness :
    (0 : Nat) ≤ (["-2", "5", "--flag", "x"] : List String).length ∧
    (collectArgumentValues 0 c6Arg ["-2", "5", "--flag", "x"]).1.length ≤ c6Arg.numArgs.2 ∧
    (collectArgumentValues 0 c6Arg ["-2", "5", "--flag", "x"]).2 ≤
      (["-2", "5", "--flag", "x"] : List String).length :=
  ⟨by decide,
    (c6_arity_collector c6Arg ["-2", "5", "--flag", "x"] 0 (by decide)).2.2.1,
    (c6_arity_collector c6Arg ["-2", "5", "--flag", "x"] 0 (by decide)).2.2.2.1⟩

/-- Finding another key is unaffected by the in-place overwrite of key
`k`. -/
theorem find?_map_set_ne (m : ResultMap) (k k' : String) (v : Value)
    (hne : k' ≠ k) :
    List.find? (fun kv => kv.1 = k')
        (m.map (fun kv => if kv.1 = k then (k, v) else kv)) =
      List.find? (fun kv => kv.1 = k') m := by
  have hkk : ¬ k = k' := fun hc => hne hc.symm
  induction m with
  | nil => rfl
  | cons kv m ih =>
    by_cases h1 : kv.1 = k
    · have h2 : ¬ kv.1 = k' := by rw [h1]; exact hkk
      simp only [List.map_cons, if_pos h1]
      rw [List.find?_cons_of_neg _ (by simpa using hkk),
        List.find?_cons_of_neg _ (by simpa using h2), ih]
    · simp only [List.map_cons, if_neg h1]
      by_cases h2 : kv.1 = k'
      · rw [List.find?_cons_of_pos _ (by simpa using h2),
          List.find?_cons_of_pos _ (by simpa using h2)]
      · rw [List.find?_cons_of_neg _ (by simpa using h2),
          List.find?_cons_of_neg _ (by simpa using h2), ih]

/-- The in-place overwrite of a present key is found as the overwritten
pair. -/
theorem find?_map_set_self (m : ResultMap) (k : String) (v : Value)
    (hm : (m.any fun kv => kv.1 = k) = true) :
    List.find? (fun kv => kv.1 = k)
        (m.map (fun kv => if kv.1 = k then (k, v) else kv)) = some (k, v) := by
  induction m with
  | nil => simp at hm
  | cons kv m ih =>
    by_cases h1 : kv.1 = k
    · simp only [List.map_cons, if_pos h1]
      rw [List.find?_cons_of_pos _ (by simp)]
    · simp only [List.map_cons, if_neg h1]
      rw [List.find?_cons_of_neg _ (by simpa using h1)]
      apply ih
      simpa [h1] using hm

/-- A search skips a first chunk none of whose entries match. -/
theorem find?_append_left_none (m l2 : ResultMap) (p : String × Value → Bool)
    (hm : (m.any p) = false) :
    List.find? p (m ++ l2) = List.find? p l2 := by
  induction m with
  | nil => rfl
  | cons kv m ih =>
    simp only [List.any_cons, Bool.or_eq_false_iff] at hm
    simp only [List.cons_append]
    rw [List.find?_cons_of_neg _ (by simp [hm.1]), ih hm.2]

/-- A search ignores an appended chunk with no matching entry. -/
theorem find?_append_right_none (m l2 : ResultMap) (p : String × Value → Bool)
    (h2 : List.find? p l2 = none) :
    List.find? p (m ++ l2) = List.find? p m := by
  induction m with
  | nil => simp only [List.nil_append, List.find?_nil]; exact h2
  | cons kv m ih =>
    by_cases hp : p kv = true
    · simp only [List.cons_append]
      rw [List.find?_cons_of_pos _ hp, List.find?_cons_of_pos _ hp]
    · simp only [List.cons_append]
      rw [List.find?_cons_of_neg _ (by simpa using hp),
        List.find?_cons_of_neg _ (by simpa using hp), ih]

/-- Reading back the key just written by a dict assignment. -/
theorem dictGet_dictSet_self (m : ResultMap) (k : String) (v : Value) :
    dictGet (dictSet m k v) k = some v := by
  unfold dictSet dictGet
  by_cases hm : (m.any fun kv => kv.1 = k) = true
  · rw [if_pos hm, find?_map_set_self m k v hm]
    rfl
  · simp only [Bool.not_eq_true] at hm
    rw [if_neg (by simp [hm]), find?_append_left_none m [(k, v)] _ hm]
    simp

/-- A dict assignment leaves every other key unchanged. -/
theorem dictGet_dictSet_ne (m : ResultMap) (k k' : String) (v : Value)
    (hne : k' ≠ k) : dictGet (dictSet m k v) k' = dictGet m k' := by
  have hkk : ¬ k = k' := fun hc => hne hc.symm
  unfold dictSet dictGet
  by_cases hm : (m.any fun kv => kv.1 = k) = true
  · rw [if_pos hm, find?_map_set_ne m k k' v hne]
  · rw [if_neg hm, find?_append_right_none m [(k, v)] _ (by simp [hkk])]

/-- Setting with `recSet` registers its key. -/
theorem recSet_contains_self (rd : RecurringData) (k : String)
    (v : List ResultMap) : recContains (recSet rd k v) k = true := by
  by_cases hc : recContains rd k = true
  · simp only [recSet, hc, if_true]
    simp only [recContains, List.any_eq_true] at hc ⊢
    obtain ⟨kv, hmem, hkv⟩ := hc
    simp only [decide_eq_true_eq] at hkv
    exact ⟨(k, v), List.mem_map.mpr ⟨kv, hmem, by simp [hkv]⟩, by simp⟩
  · simp only [recSet, hc, if_false, Bool.false_eq_true]
    simp [recContains]

/-- Setting with `recSet` keeps every registered key. -/
theorem recSet_contains_mono (rd : RecurringData) (k n : String)
    (v : List ResultMap) (h : recContains rd n = true) :
    recContains (recSet rd k v) n = true := by
  by_cases hc : recContains rd k = true
  · simp only [recSet, hc, if_true]
    simp only [recContains, List.any_eq_true] at h ⊢
    obtain ⟨kv, hmem, hkv⟩ := h
    simp only [decide_eq_true_eq] at hkv
    by_cases h1 : kv.1 = k
    · exact ⟨(k, v), List.mem_map.mpr ⟨kv, hmem, by simp [h1]⟩,
        by simp [← h1, hkv]⟩
    · exact ⟨kv, List.mem_map.mpr ⟨kv, hmem, by simp [h1]⟩, by simp [hkv]⟩
  · simp only [recSet, hc, if_false, Bool.false_eq_true]
    simp only [recContains, List.any_append, Bool.or_eq_true]
    left
    exact h

/-- Resetting recurring accumulators keeps every registered key. -/
theorem recurringReset_contains_mono (children : List Node) :
    ∀ (rd : RecurringData) (n : String), recContains rd n = true →
    recContains (recurringReset children rd) n = true := by
  induction children with
  | nil => intro rd n h; exact h
  | cons nd rest ih =>
    intro rd n h
    rw [recurringReset]
    by_cases hr : nd.isRecurringGroup = true
    · rw [if_pos hr]
      exact ih _ n (recSet_contains_mono rd nd.name n [] h)
    · rw [if_neg hr]
      exact ih rd n h

/-- Resetting recurring accumulators registers every declared recurring
child. -/
theorem recurringReset_contains_child (children : List Node) :
    ∀ (rd : RecurringData) (g : Node), g ∈ children →
    g.isRecurringGroup = true →
    recContains (recurringReset children rd) g.name = true := by
  induction children with
  | nil => intro rd g hg _; exact absurd hg (List.not_mem_nil g)
  | cons nd rest ih =>
    intro rd g hg hrec
    rw [recurringReset]
    rcases List.mem_cons.mp hg with heq | hmem
    · subst heq
      rw [if_pos hrec]
      exact recurringReset_contains_mono rest _ _ (recSet_contains_self rd g.name [])
    · by_cases hr : nd.isRecurringGroup = true
      · rw [if_pos hr]
        exact ih _ g hmem hrec
      · rw [if_neg hr]
        exact ih rd g hmem hrec

/-- Appending an occurrence to a recurring accumulator keeps the key
set. -/
theorem recurringAppend_contains (rd : RecurringData) (k : String)
    (r : ResultMap) (n : String) :
    recContains (recurringAppend rd k r) n = recContains rd n := by
  unfold recurringAppend recContains
  rw [List.any_map]
  congr 1
  funext kv
  by_cases h1 : kv.1 = k <;> simp [h1]

/-- Indexing the children touches only the two index fields. -/
theorem indexParserArgs_recurringData (children : List Node) :
    ∀ s : PState, (indexParserArgs children s).recurringData = s.recurringData := by
  induction children with
  | nil => intro s; rfl
  | cons nd rest ih =>
    intro s
    rw [indexParserArgs, ih]
    cases h : nd.aliasName <;> simp only [h] <;> split <;> rfl

/-- The matching step never touches the recurring accumulators. -/
theorem matchToken_recurringData (s : PState) (token : String) (position : Nat)
    (s' : PState) (h : matchToken s token position = .ok s') :
    s'.recurringData = s.recurringData := by
  unfold matchToken at h
  try dsimp only at h
  repeat' split at h
  all_goals (try cases h)
  all_goals rfl

/-- Popping a consumed entry never touches the recurring accumulators. -/
theorem popConsumedArg_recurringData (nd : Node) (token : String)
    (position : Nat) (s s' : PState)
    (h : popConsumedArg nd token position s = .ok s') :
    s'.recurringData = s.recurringData := by
  unfold popConsumedArg at h
  try dsimp only at h
  repeat' split at h
  all_goals (try cases h)
  all_goals rfl

/-- Through every successful engine call, the set of registered recurring
names only grows: accumulators are reset or appended to, and nested
descents only register more groups (parser.py 489-494, 424-425). -/
theorem run_recurring_mono (fuel : Nat) :
    ∀ (c : Call) (out : ResultMap × Nat × PState), run fuel c = .ok out →
    ∀ n, recContains (stateOfCall c).recurringData n = true →
    recContains out.2.2.recurringData n = true := by
  induction fuel with
  | zero => intro c out h; simp [run] at h
  | succ f ih =>
    intro c out h n hn
    cases c with
    | args children tokens s =>
      simp only [run] at h
      apply ih _ _ h n
      show recContains (recurringReset children
          (indexParserArgs children s).recurringData) n = true
      rw [indexParserArgs_recurringData]
      exact recurringReset_contains_mono children _ n hn
    | loop tokens total i position result s =>
      simp only [run] at h
      split at h
      · split at h
        next e heq1 => cases h
        next s1 heq1 =>
          split at h
          next e heq2 => cases h
          next results i2 s2 heq2 =>
            have h1 : recContains s1.recurringData n = true := by
              rw [matchToken_recurringData s _ _ s1 heq1]
              exact hn
            have h2 : recContains s2.recurringData n = true := ih _ _ heq2 n h1
            exact ih _ _ h n h2
      · cases h
        exact hn
    | toks token tokens i position s =>
      simp only [run] at h
      split at h
      next e heq => cases h
      next argNode heq =>
        split at h
        next e heq2 => cases h
        next s2 heq2 =>
          have h2 : recContains s2.recurringData n = true := by
            split at heq2
            · cases heq2
              exact hn
            · rw [popConsumedArg_recurringData argNode token position s s2 heq2]
              exact hn
          split at h
          · split at h
            next e heq3 => cases h
            next res i2 heq3 =>
              cases h
              exact h2
          · exact ih _ _ h n h2
    | grp gname gchildren i tokens s =>
      simp only [run] at h
      split at h
      next e heq => cases h
      next groupResult iRel s2 heq =>
        have h2 : recContains s2.recurringData n = true := ih _ _ heq n hn
        split at h
        · cases h
          show recContains (recurringAppend s2.recurringData gname groupResult) n = true
          rw [recurringAppend_contains]
          exact h2
        · cases h
          exact h2

/-- Overwriting the running result with every recurring accumulator
(parser.py 521-522) makes every registered name present with a list
value, and preserves any already-present list entry. -/
theorem foldl_dictSet_maps (rd : RecurringData) :
    ∀ (m : ResultMap) (n : String),
    (recContains rd n = true ∨ ∃ ms0, dictGet m n = some (Value.maps ms0)) →
    ∃ ms, dictGet (rd.foldl (fun acc kv => dictSet acc kv.1 (Value.maps kv.2)) m) n =
      some (Value.maps ms) := by
  induction rd with
  | nil =>
    intro m n h
    rcases h with h | h
    · simp [recContains] at h
    · exact h
  | cons kv rd ih =>
    intro m n h
    rw [List.foldl_cons]
    apply ih
    by_cases hk : n = kv.1
    · right
      exact ⟨kv.2, by rw [hk, dictGet_dictSet_self]⟩
    · rcases h with h | ⟨ms0, hm0⟩
      · simp only [recContains, List.any_cons, Bool.or_eq_true,
          decide_eq_true_eq] at h
        rcases h with h | h
        · exact absurd h.symm hk
        · left
          simp only [recContains]
          exact h
      · right
        exact ⟨ms0, by rw [dictGet_dictSet_ne _ _ _ _ hk]; exact hm0⟩

/-- Every successful pass through the token loop that starts with tokens
remaining ends with an entry for every registered recurring name, holding
a list value: the loop body's final statement overwrites all of them into
the running result, and later iterations only re-establish this. -/
theorem run_loop_recurring_present (fuel : Nat) :
    ∀ (tokens : List String) (total i position : Nat) (result : ResultMap)
      (s : PState) (out : ResultMap × Nat × PState),
    run fuel (.loop tokens total i position result s) = .ok out →
    i < total → ∀ n, recContains s.recurringData n = true →
    ∃ ms, dictGet out.1 n = some (Value.maps ms) := by
  induction fuel with
  | zero => intro tokens total i position result s out h; simp [run] at h
  | succ f ih =>
    intro tokens total i position result s out h hi n hn
    simp only [run, if_pos hi] at h
    split at h
    next e heq1 => cases h
    next s1 heq1 =>
      split at h
      next e heq2 => cases h
      next results i2 s2 heq2 =>
        have h1 : recContains s1.recurringData n = true := by
          rw [matchToken_recurringData s _ _ s1 heq1]
          exact hn
        have h2 : recContains s2.recurringData n = true :=
          run_recurring_mono f _ _ heq2 n h1
        by_cases hi2 : i2 < total
        · exact ih tokens total i2 (position + 1) _ s2 out h hi2 n h2
        · cases f with
          | zero => simp [run] at h
          | succ f2 =>
            simp only [run, if_neg hi2] at h
            cases h
            exact foldl_dictSet_maps s2.recurringData _ n (Or.inl h2)

/-- C4 amended: for every nonempty token list on which the engine
succeeds, the result contains an entry for every declared recurring child
of the parsed group, holding a list value — while (see the
counterexample) for the empty token list the loop never runs and the
entry is absent. -/
theorem c4_recurring_present (fuel : Nat) (children : List Node)
    (tokens : List String) (s : PState) (out : ResultMap × Nat × PState)
    (hne : tokens ≠ [])
    (h : parseArgs fuel children tokens s = .ok out)
    (g : Node) (hg : g ∈ children) (hrec : g.isRecurringGroup = true) :
    ∃ ms, dictGet out.1 g.name = some (Value.maps ms) := by
  cases fuel with
  | zero => simp [parseArgs, run] at h
  | succ f =>
    simp only [parseArgs, run] at h
    have hlen : 0 < tokens.length := by
      cases tokens with
      | nil => exact absurd rfl hne
      | cons t ts => simp
    apply run_loop_recurring_present f tokens tokens.length 0 0 [] _ out h hlen
    show recContains (recurringReset children
        (indexParserArgs children s).recurringData) g.name = true
    rw [indexParserArgs_recurringData]
    exact recurringReset_contains_child children _ g hg hrec


/-- Witness for C4 amended: parsing `["--count", "5"]` against a schema
that declares the recurring group `--job` (never matched) succeeds and
the result carries the entry `--job` with the empty instance list. -/
theorem c4_recurring_present_witness :
    ∃ ms, dictGet w4Res "--job" = some (Value.maps ms) :=
  c4_recurring_present 40 w4Root ["--count", "5"] initState (w4Res, 2, w4State)
    (by decide) rfl jobGroup (by simp [w4Root]) rfl

/-- C7: in the token-matching step, a token that exactly matches a named
index entry is recorded as the most recently consumed named token (and no
UnknownArgumentError arises at this step); any other token is rejected
with UnknownArgumentError carrying that token exactly when the index
position of the most recently consumed named token exceeds the position
of the next expected positional entry, and is let through otherwise
(parser.py 499-514). -/
theorem c7_token_matching (s : PState) (token : String) (position : Nat)
    (lastTok nextPos : String)
    (hlast : lastConsumedOf s = .ok lastTok)
    (hnext : s.positionalArgs.keyFromIndex position = .ok nextPos) :
    (s.parserArgs.containsKey token = true →
      matchToken s token position =
        .ok { s with consumedArgs := s.consumedArgs ++ [token] }) ∧
    (s.parserArgs.containsKey token = false →
      ∀ pl pp : Nat, s.parserArgs.position lastTok = .ok pl →
        s.parserArgs.position nextPos = .ok pp →
        ((pp < pl → matchToken s token position = .error (.unknownArgument token)) ∧
         (pl ≤ pp → matchToken s token position = .ok s))) := by
  constructor
  · intro hc
    simp [matchToken, hlast, hnext, hc, bind, Except.bind, pure, Except.pure]
  · intro hc pl pp hpl hpp
    constructor
    · intro hlt
      simp [matchToken, hlast, hnext, hc, hpl, hpp, hlt, bind, Except.bind,
        throw, throwThe, MonadExceptOf.throw]
    · intro hle
      have hno : ¬ pp < pl := by omega
      simp [matchToken, hlast, hnext, hc, hpl, hpp, hno, bind, Except.bind, pure, Except.pure]

/-- Witness for C7: in a state where the consumed named flag `--b` sits
at index position 1 and the next expected positional `pos1` at position
0, the unknown token `zzz` is rejected with UnknownArgumentError. -/
theorem c7_token_matching_witness :
    lastConsumedOf c7State = .ok "--b" ∧
    c7State.positionalArgs.keyFromIndex 0 = .ok "pos1" ∧
    c7State.parserArgs.containsKey "zzz" = false ∧
    c7State.parserArgs.position "--b" = .ok 1 ∧
    c7State.parserArgs.position "pos1" = .ok 0 ∧
    matchToken c7State "zzz" 0 = .error (.unknownArgument "zzz") :=
  ⟨rfl, rfl, rfl, rfl, rfl,
    ((c7_token_matching c7State "zzz" 0 "--b" "pos1" rfl rfl).2 rfl 1 0 rfl rfl).1
      (by decide)⟩

/-- C10: the name-shape check at the end of `_post_init`
(argument.py 133-136) does reject a single-dash name with ArgumentError,
but constructing such an argument never reaches it: the premature
`_post_init` dispatch from `AshParser.__init__` raises AttributeError on
the unassigned `_num_args` first. -/
theorem c10_single_dash_name :
    argumentPostInit "-x" .str none false none none none none =
      .error (.argumentError "Argument names must start with two or zero dashes") ∧
    argumentNew "-x" .str none none false none none none none =
      .error (.attributeError "_num_args") :=
  ⟨rfl, rfl⟩

end AshParse
